import Mathlib

/-!
Shallow embedding of the LFRing flash-backed ring buffer
(`src/LFRing.c`, `src/LFRing.h`) and proofs about its specification.

Modelling conventions:
* The four `uint32_t` metadata fields become `Nat` values; every arithmetic
  step that the C source performs in `uint32_t` (or in mixed
  `uint32_t`/`int` expressions) is taken mod `2^32` explicitly.
* The block file is modelled at item granularity: all file offsets in the
  source are multiples of `item_size`, so the scaling by `item_size`
  cancels and the file is a `List Nat` of records, one entry per slot.
* NVS persistence is collapsed: every public operation reloads metadata at
  entry and saves at exit, so the metadata passed in is the persisted
  pre-state and the metadata returned is the persisted post-state (the
  one exception, the capacity-rejection path, saves nothing and the
  model returns the input metadata unchanged, which is the same state).
* `fopen` outcomes are explicit `Bool` parameters, letting the recovery
  paths (file unopenable) be exercised deterministically.
-/

namespace LFRing

/-- Error codes from `LFRing.h` (`ringbuf_error_t`). -/
def LFRB_OK : Int := 0

/-- NVS namespace cannot be opened (`LFRing.h`). -/
def LFRB_NVS_ERROR : Int := 1

/-- Block file operation failed (`LFRing.h`). -/
def LFRB_LFS_ERROR : Int := 2

/-- LittleFS root path not found (`LFRing.h`). -/
def LFRB_ROOT_NOT_FOUND_ERROR : Int := 3

/-- Failed to recreate the block file (`LFRing.h`). -/
def LFRB_NFILE_ERROR : Int := 4

/-- Modelled from the spec: `LFRB_ENUM_EXCEED` (the `CapacityExceeded`
code of spec section 7) is returned by `LFRingWrite` (LFRing.c line 399)
but its numeric value is defined nowhere under `src/`; the spec only
requires it to be a distinct error code, so it is modelled as 5. -/
def LFRB_ENUM_EXCEED : Int := 5

/-- `2^32`, the modulus of the `uint32_t` arithmetic in the source. -/
def U32 : Nat := 2 ^ 32

/-- Conversion of a C `int` to `uint32_t`, the usual arithmetic conversion
applied when an `int` operand meets a `uint32_t` operand. -/
def u32ofInt (i : Int) : Nat := (i % (U32 : Int)).toNat

/-- `uint32_t + int` in C: the `int` is converted to `uint32_t` and the
addition is taken mod `2^32`. -/
def u32add (a : Nat) (i : Int) : Nat := (a + u32ofInt i) % U32

/-- The ring buffer metadata (`ringbuf_meta_t` in `LFRing.h`), restricted to
the four `uint32_t` fields; the path strings and the lock handle play no
part in the buffer arithmetic and are not modelled. -/
structure ringbuf_meta_t where
  head : Nat
  tail : Nat
  item_size : Nat
  item_num : Nat
deriving Repr, DecidableEq

/-- The block file at item granularity: entry `i` is the record stored in
slot `i`, and the list length is the file length in items. -/
abbrev BlockFile := List Nat

/-- Zero-fill a file up to length `n`: the hole that `fseek` past the end
of file followed by `fwrite` leaves behind. -/
def padTo (f : BlockFile) (n : Nat) : BlockFile :=
  f ++ List.replicate (n - f.length) 0

/-- `fseek(f, pos); fwrite(data, ...)`: overwrite starting at item
position `pos`, extending the file when needed. -/
def fwriteAt (f : BlockFile) (pos : Nat) (data : List Nat) : BlockFile :=
  (padTo f pos).take pos ++ data ++ f.drop (pos + data.length)

/-- `fseek(f, pos); fread(..., num)`: the items actually read, fewer than
`num` when the file ends first. -/
def freadAt (f : BlockFile) (pos num : Nat) : List Nat :=
  (f.drop pos).take num

/-- `reset_ringbuf_meta` (LFRing.c lines 28-34): zero head and tail, store
the item size and count, persist.  The recovery paths call it with the
metadata's own current `item_size`/`item_num`. -/
def reset_ringbuf_meta (m : ringbuf_meta_t) (itemSize itemNum : Nat) :
    ringbuf_meta_t :=
  { m with head := 0, tail := 0, item_size := itemSize, item_num := itemNum }

/-- One raw block write issued to the file: item position and data. -/
structure BlockWrite where
  pos : Nat
  data : List Nat
deriving Repr, DecidableEq

/-- One raw block read issued to the file: item position and the requested
item count passed to `fread`. -/
structure BlockRead where
  pos : Nat
  req : Nat
deriving Repr, DecidableEq

/-- Result of `ringbuf_write`: the C return value (`int`), the metadata and
file after the call, and the raw block writes actually issued. -/
structure WriteRes where
  res : Int
  meta : ringbuf_meta_t
  file : BlockFile
  ops : List BlockWrite
deriving Repr, DecidableEq

/-- `ringbuf_write` (LFRing.c lines 238-267).  `openOk` is whether the
initial `fopen(path, "rb+")` succeeds; `retryOk` is whether the recovery
(`reset_ringbuf_lfs` recreating the file, then the reopen) succeeds.
Note that `pos` is computed from `meta->head` before any reset, so a
retried write still lands at the stale pre-reset position; and on the
failed-retry path the function returns `-LFRB_NFILE_ERROR` after
`reset_ringbuf_meta` has already zeroed and persisted head/tail. -/
def ringbuf_write (m : ringbuf_meta_t) (f : BlockFile) (data : List Nat)
    (openOk retryOk : Bool) : WriteRes :=
  let pos := m.head
  if openOk then
    ⟨Int.ofNat data.length, m, fwriteAt f pos data, [⟨pos, data⟩]⟩
  else
    let m' := reset_ringbuf_meta m m.item_size m.item_num
    if retryOk then
      ⟨Int.ofNat data.length, m', fwriteAt [] pos data, [⟨pos, data⟩]⟩
    else
      ⟨-LFRB_NFILE_ERROR, m', f, []⟩

/-- Result of `ringbuf_read`: the C return value (always `≥ 0`), the
metadata and file after the call, the items read, and the raw block reads
issued. -/
structure ReadRes where
  res : Nat
  meta : ringbuf_meta_t
  file : BlockFile
  data : List Nat
  ops : List BlockRead
deriving Repr, DecidableEq

/-- `ringbuf_read` (LFRing.c lines 285-306).  A single `fread` of `num`
items at item position `meta->tail`; if `fopen(path, "rb")` fails, both
metadata and file are reset and 0 is returned. -/
def ringbuf_read (m : ringbuf_meta_t) (f : BlockFile) (num : Nat)
    (openOk : Bool) : ReadRes :=
  let pos := m.tail
  if openOk then
    let d := freadAt f pos num
    ⟨d.length, m, f, d, [⟨pos, num⟩]⟩
  else
    ⟨0, reset_ringbuf_meta m m.item_size m.item_num, [], [], []⟩

/-- The occupancy computation of `LFRingWrite` (LFRing.c lines 420-422):
`(head >= tail) ? head - tail : item_num - tail + head`, in `uint32_t`
arithmetic (the subtraction wraps mod `2^32` when `tail > item_num`). -/
def used_of (m : ringbuf_meta_t) : Nat :=
  if m.head ≥ m.tail then m.head - m.tail
  else ((U32 + m.item_num - m.tail) % U32 + m.head) % U32

/-- The head/tail update at the end of `LFRingWrite` (LFRing.c lines
418-430), with the mixed `uint32_t`/`int` arithmetic made explicit: `n`
is the C `int n` accumulated from the `ringbuf_write` return values, so
it is converted to `uint32_t` wherever it meets a `uint32_t` field. -/
def LFRingWrite_update (m : ringbuf_meta_t) (n : Int) : ringbuf_meta_t :=
  if u32add (used_of m) n > m.item_num - 1 then
    { m with head := u32add m.head n % m.item_num,
             tail := ((m.tail + (u32add (used_of m) n - m.item_num + 1) % U32)
                        % U32) % m.item_num }
  else
    { m with head := u32add m.head n % m.item_num }

/-- Result of `LFRingWrite`: C return value, persisted metadata, file, and
the raw block writes issued. -/
structure WriteOut where
  res : Int
  meta : ringbuf_meta_t
  file : BlockFile
  ops : List BlockWrite
deriving Repr, DecidableEq

/-- `LFRingWrite` (LFRing.c lines 390-437).  `m` is the metadata as
reloaded from NVS at entry; the returned metadata is what the final
`save_ringbuf_meta` persists (on the rejection path nothing is saved and
the metadata is unchanged).  Flags `openOk1`/`retryOk1` drive the fopen
attempts of the first `ringbuf_write` call, `openOk2`/`retryOk2` those of
the second (wrap) call.  In the wrap branch the source assigns
`meta->head = 0` between the two block writes, and the final update then
runs on that zeroed head. -/
def LFRingWrite (m : ringbuf_meta_t) (f : BlockFile) (data : List Nat)
    (openOk1 retryOk1 openOk2 retryOk2 : Bool) : WriteOut :=
  if data.length > m.item_num - 1 then
    ⟨-LFRB_ENUM_EXCEED, m, f, []⟩
  else if m.item_num - m.head ≥ data.length then
    let w := ringbuf_write m f data openOk1 retryOk1
    ⟨w.res, LFRingWrite_update w.meta w.res, w.file, w.ops⟩
  else
    let write_num := m.item_num - m.head
    let w1 := ringbuf_write m f (data.take write_num) openOk1 retryOk1
    let m1 := { w1.meta with head := 0 }
    let w2 := ringbuf_write m1 w1.file (data.drop write_num) openOk2 retryOk2
    ⟨w1.res + w2.res, LFRingWrite_update w2.meta (w1.res + w2.res),
      w2.file, w1.ops ++ w2.ops⟩

/-- Result of `LFRingRead`: C return value, persisted metadata, file, the
items delivered to the caller, and the raw block reads issued. -/
structure ReadOut where
  res : Nat
  meta : ringbuf_meta_t
  file : BlockFile
  data : List Nat
  ops : List BlockRead
deriving Repr, DecidableEq

/-- `LFRingRead` (LFRing.c lines 451-472).  Empty buffer returns 0 with no
state change and no block read; otherwise one `ringbuf_read`, then
`tail = (tail + n) % item_num` is persisted. -/
def LFRingRead (m : ringbuf_meta_t) (f : BlockFile) (num : Nat)
    (openOk : Bool) : ReadOut :=
  if m.tail = m.head then
    ⟨0, m, f, [], []⟩
  else
    let r := ringbuf_read m f num openOk
    ⟨r.res,
      { r.meta with tail := ((r.meta.tail + r.res) % U32) % r.meta.item_num },
      r.file, r.data, r.ops⟩

/-- `LFRingIsEmpty` (LFRing.c lines 369-373) after a successful metadata
load: `tail == head`. -/
def LFRingIsEmpty (m : ringbuf_meta_t) : Bool := m.tail == m.head

/-- `init_ringbuf_meta` (LFRing.c lines 53-97): `prev` is the metadata
found in NVS (`none` when the namespace cannot be opened, e.g. a fresh
device).  A size/count mismatch or a missing record triggers
`reset_ringbuf_meta`. -/
def init_ringbuf_meta (prev : Option ringbuf_meta_t) (itemSize itemNum : Nat) :
    ringbuf_meta_t :=
  match prev with
  | some p =>
      if p.item_size = itemSize ∧ p.item_num = itemNum then p
      else reset_ringbuf_meta p itemSize itemNum
  | none => reset_ringbuf_meta ⟨0, 0, 0, 0⟩ itemSize itemNum

/-- `init_ringbuf_lfs` (LFRing.c lines 200-221): the block file is
truncated only when `head == 0 && tail == 0`. -/
def init_ringbuf_lfs (m : ringbuf_meta_t) (f : BlockFile) : BlockFile :=
  if m.head = 0 ∧ m.tail = 0 then [] else f

/-- `LFRingInit` (LFRing.c lines 346-353): metadata init from the prior
persisted record, then file init. -/
def LFRingInit (prev : Option ringbuf_meta_t) (f : BlockFile)
    (itemSize itemNum : Nat) : ringbuf_meta_t × BlockFile :=
  let m := init_ringbuf_meta prev itemSize itemNum
  (m, init_ringbuf_lfs m f)

/-- A sequence of `LFRingWrite` calls on a healthy filesystem (every fopen
succeeds), threading metadata and file. -/
def writeSeq : ringbuf_meta_t → BlockFile → List (List Nat) →
    ringbuf_meta_t × BlockFile
  | m, f, [] => (m, f)
  | m, f, d :: ds =>
      let w := LFRingWrite m f d true true true true
      writeSeq w.meta w.file ds

/-! ### Helper lemmas -/

theorem u32ofInt_ofNat (n : Nat) (h : n < U32) : u32ofInt (Int.ofNat n) = n := by
  have hU : U32 = 4294967296 := rfl
  simp only [u32ofInt, hU, Int.ofNat_eq_coe, Nat.cast_ofNat]
  omega

theorem u32add_nat (a n : Nat) (h : a + n < U32) :
    u32add a (Int.ofNat n) = a + n := by
  unfold u32add
  rw [u32ofInt_ofNat n (by omega)]
  exact Nat.mod_eq_of_lt h

theorem fwriteAt_at_end (f : BlockFile) (d : List Nat) :
    fwriteAt f f.length d = f ++ d := by
  have h1 : f.drop (f.length + d.length) = [] :=
    List.drop_eq_nil_of_le (by omega)
  simp [fwriteAt, padTo, h1]

theorem LFRingWrite_update_no_evict (m : ringbuf_meta_t) (n : Nat)
    (htail : m.tail = 0) (hfit : m.head + n ≤ m.item_num - 1)
    (hN : 2 ≤ m.item_num) (hN32 : m.item_num < U32) :
    LFRingWrite_update m (Int.ofNat n) = { m with head := m.head + n } := by
  have hu : used_of m = m.head := by
    unfold used_of
    rw [htail, if_pos (Nat.zero_le m.head)]
    exact Nat.sub_zero m.head
  have ha : u32add m.head (Int.ofNat n) = m.head + n :=
    u32add_nat m.head n (by omega)
  unfold LFRingWrite_update
  rw [hu, ha, if_neg (by omega)]
  rw [Nat.mod_eq_of_lt (show m.head + n < m.item_num by omega)]

theorem LFRingWrite_linear_step (m : ringbuf_meta_t) (f : BlockFile)
    (d : List Nat) (htail : m.tail = 0) (hf : f.length = m.head)
    (hfit : m.head + d.length ≤ m.item_num - 1) (hN : 2 ≤ m.item_num)
    (hN32 : m.item_num < U32) :
    LFRingWrite m f d true true true true =
      ⟨Int.ofNat d.length, { m with head := m.head + d.length },
        f ++ d, [⟨m.head, d⟩]⟩ := by
  have hw : ringbuf_write m f d true true =
      ⟨Int.ofNat d.length, m, fwriteAt f m.head d, [⟨m.head, d⟩]⟩ := by
    unfold ringbuf_write
    rw [if_pos rfl]
  unfold LFRingWrite
  rw [if_neg (by omega), if_pos (by omega), hw]
  simp only []
  rw [LFRingWrite_update_no_evict m d.length htail hfit hN hN32, ← hf,
    fwriteAt_at_end]

theorem writeSeq_from_empty (s N : Nat) (ds : List (List Nat)) (hN : 2 ≤ N)
    (hN32 : N < U32) :
    ∀ f : BlockFile, f.length + ds.flatten.length ≤ N - 1 →
      writeSeq ⟨f.length, 0, s, N⟩ f ds =
        (⟨f.length + ds.flatten.length, 0, s, N⟩, f ++ ds.flatten) := by
  induction ds with
  | nil =>
      intro f hb
      simp [writeSeq]
  | cons d ds ih =>
      intro f hb
      rw [List.flatten_cons, List.length_append] at hb
      have hstep := LFRingWrite_linear_step ⟨f.length, 0, s, N⟩ f d rfl rfl
        (show f.length + d.length ≤ N - 1 by omega) hN hN32
      have ih' := ih (f ++ d) (by rw [List.length_append]; omega)
      rw [List.length_append] at ih'
      simp only [writeSeq]
      rw [hstep]
      simp only []
      show writeSeq ⟨f.length + d.length, 0, s, N⟩ (f ++ d) ds = _
      rw [ih', List.flatten_cons, List.length_append]
      simp [Nat.add_assoc]

/-! ### Claim theorems -/

/-- C1.  The claim states that every successful Write leaves the persisted
head at `(h + written) mod N`, including when the write wraps.  The code
violates this on every wrapping write: the source zeroes `meta->head`
between the two split block writes, and the final update then advances
from 0 by the full count `n`, double-counting the first segment.
Concretely with `N = 5`: writing 3 items to an empty buffer gives
`head = 3`; a further write of 4 items wraps and the code persists
`head = 4`, while `(3 + 4) mod 5 = 2`. -/
theorem c1_wrap_write_head_bug :
    (writeSeq ⟨0, 0, 1, 5⟩ [] [[10, 11, 12]]).1 = ⟨3, 0, 1, 5⟩ ∧
    (writeSeq ⟨0, 0, 1, 5⟩ [] [[10, 11, 12]]).2 = [10, 11, 12] ∧
    (LFRingWrite ⟨3, 0, 1, 5⟩ [10, 11, 12] [20, 21, 22, 23]
        true true true true).res = 4 ∧
    (LFRingWrite ⟨3, 0, 1, 5⟩ [10, 11, 12] [20, 21, 22, 23]
        true true true true).meta.head = 4 ∧
    (3 + 4) % 5 = 2 := by
  decide

/-- C2.  The claim states that a write pushing the occupancy past `N-1`
advances the tail by `used_before + written - (N-1)` items, with
`used_before` computed from the pre-update head; in particular writing
`capacity-1` items to an empty buffer and then `E` more evicts exactly
`E` oldest items.  With `N = 5`: after writing 4 items (head = 4,
tail = 0), a write of `E = 2` more wraps; the claim requires
`used_before = 4`, eviction of 2, `tail = 2`.  The code computes `used`
from the zeroed wrap head (`used = 0`), performs no eviction, and leaves
`tail = 0` even though slot 0 (the oldest unread item, value 1) has been
physically overwritten with the newest item. -/
theorem c2_wrap_write_evict_bug :
    (writeSeq ⟨0, 0, 1, 5⟩ [] [[1, 2, 3, 4], [5, 6]]).1 = ⟨2, 0, 1, 5⟩ ∧
    (writeSeq ⟨0, 0, 1, 5⟩ [] [[1, 2, 3, 4], [5, 6]]).2 = [6, 2, 3, 4, 5] := by
  decide

/-- C3 counterexample.  The claim states that a single Write with
`count ≥ capacity-1` always fails with `CapacityExceeded`; but the source
rejects only `num > item_num - 1`, so with `N = 5` a write of exactly
`N - 1 = 4` items to an empty buffer succeeds, returns 4 and moves the
head. -/
theorem c3_usable_capacity_write_accepted :
    (LFRingWrite ⟨0, 0, 1, 5⟩ [] [1, 2, 3, 4] true true true true).res = 4 ∧
    (LFRingWrite ⟨0, 0, 1, 5⟩ [] [1, 2, 3, 4] true true true true).meta.head
      = 4 ∧
    (LFRingWrite ⟨0, 0, 1, 5⟩ [] [1, 2, 3, 4] true true true true).meta.tail
      = 0 := by
  decide

/-- C3 amended.  A single Write of `count ≥ capacity` items (that is,
`count > N-1`, strictly above the usable capacity) fails with
`CapacityExceeded` and leaves the persisted metadata and the file
unchanged, issuing no block write. -/
theorem c3_write_capacity_reject (m : ringbuf_meta_t) (f : BlockFile)
    (d : List Nat) (o1 r1 o2 r2 : Bool) (hN : 1 ≤ m.item_num)
    (hlen : m.item_num ≤ d.length) :
    LFRingWrite m f d o1 r1 o2 r2 = ⟨-LFRB_ENUM_EXCEED, m, f, []⟩ := by
  unfold LFRingWrite
  rw [if_pos (by omega)]

/-- C3 witness: a write of 5 items on a capacity-5 buffer is rejected with
the metadata untouched. -/
theorem c3_write_capacity_reject_witness :
    1 ≤ (5 : Nat) ∧ (5 : Nat) ≤ [1, 2, 3, 4, 5].length ∧
    LFRingWrite ⟨2, 1, 1, 5⟩ [9, 9] [1, 2, 3, 4, 5] true true true true =
      ⟨-LFRB_ENUM_EXCEED, ⟨2, 1, 1, 5⟩, [9, 9], []⟩ :=
  ⟨by decide, by decide,
    c3_write_capacity_reject ⟨2, 1, 1, 5⟩ [9, 9] [1, 2, 3, 4, 5]
      true true true true (by decide) (by decide)⟩

/-- C4.  FIFO round-trip: starting from a fresh Init with no prior
persisted state, writing any sequence of batches totalling
`k ≤ capacity - 1` items (each batch a separate `LFRingWrite`) and then
reading `k` items returns exactly the written items in order.  (No batch
can wrap: from an empty buffer with `head = 0` the running head always
equals the file length, which stays at most `N-1`.) -/
theorem c4_fifo_roundtrip (s N : Nat) (ds : List (List Nat)) (hN : 2 ≤ N)
    (hN32 : N < U32) (hk : ds.flatten.length ≤ N - 1) :
    (LFRingRead (writeSeq (LFRingInit none [] s N).1
        (LFRingInit none [] s N).2 ds).1
      (writeSeq (LFRingInit none [] s N).1
        (LFRingInit none [] s N).2 ds).2
      ds.flatten.length true).data = ds.flatten ∧
    (LFRingRead (writeSeq (LFRingInit none [] s N).1
        (LFRingInit none [] s N).2 ds).1
      (writeSeq (LFRingInit none [] s N).1
        (LFRingInit none [] s N).2 ds).2
      ds.flatten.length true).res = ds.flatten.length := by
  have hinit : LFRingInit none [] s N = (⟨0, 0, s, N⟩, []) := rfl
  have hseq := writeSeq_from_empty s N ds hN hN32 [] (by simpa using hk)
  simp only [List.length_nil, List.nil_append, Nat.zero_add] at hseq
  rw [hinit]
  simp only []
  rw [hseq]
  simp only []
  by_cases h0 : ds.flatten = []
  · rw [h0]
    simp [LFRingRead]
  · have hne : (⟨ds.flatten.length, 0, s, N⟩ : ringbuf_meta_t).tail ≠
        (⟨ds.flatten.length, 0, s, N⟩ : ringbuf_meta_t).head := by
      show (0 : Nat) ≠ ds.flatten.length
      intro hc
      exact h0 (List.eq_nil_of_length_eq_zero hc.symm)
    unfold LFRingRead
    rw [if_neg hne]
    unfold ringbuf_read
    rw [if_pos rfl]
    simp [freadAt, List.take_length]

/-- C4 witness: `N = 5`, batches `[1,2]` then `[3]`, read-back of 3 items
yields `[1,2,3]`. -/
theorem c4_fifo_roundtrip_witness :
    2 ≤ (5 : Nat) ∧ (5 : Nat) < U32 ∧
    ([[1, 2], [3]] : List (List Nat)).flatten.length ≤ 5 - 1 ∧
    (LFRingRead (writeSeq (LFRingInit none [] 1 5).1
        (LFRingInit none [] 1 5).2 [[1, 2], [3]]).1
      (writeSeq (LFRingInit none [] 1 5).1
        (LFRingInit none [] 1 5).2 [[1, 2], [3]]).2
      ([[1, 2], [3]] : List (List Nat)).flatten.length true).data =
      ([[1, 2], [3]] : List (List Nat)).flatten :=
  ⟨by decide, by decide, by decide,
    (c4_fifo_roundtrip 1 5 [[1, 2], [3]] (by decide) (by decide)
      (by decide)).1⟩

/-- C5.  Block-write placement of an accepted Write on a healthy file:
with `space = N - head`, a count fitting in `space` issues exactly one
block write of the whole data at `head`; a larger count issues exactly
two, `space` items at `head` followed by the remaining `count - space`
items at slot 0. -/
theorem c5_write_block_placement (m : ringbuf_meta_t) (f : BlockFile)
    (d : List Nat) (hlen : d.length ≤ m.item_num - 1) :
    (LFRingWrite m f d true true true true).ops =
      if d.length ≤ m.item_num - m.head then [⟨m.head, d⟩]
      else [⟨m.head, d.take (m.item_num - m.head)⟩,
            ⟨0, d.drop (m.item_num - m.head)⟩] := by
  unfold LFRingWrite
  rw [if_neg (by omega)]
  by_cases hsp : m.item_num - m.head ≥ d.length
  · rw [if_pos hsp, if_pos hsp]
    unfold ringbuf_write
    rw [if_pos rfl]
  · rw [if_neg hsp, if_neg hsp]
    unfold ringbuf_write
    simp

/-- C5 witness: `N = 5`, `head = 3`, writing 4 items splits into 2 items
at slot 3 and 2 items at slot 0. -/
theorem c5_write_block_placement_witness :
    [20, 21, 22, 23].length ≤ 5 - 1 ∧
    (LFRingWrite ⟨3, 0, 1, 5⟩ [10, 11, 12] [20, 21, 22, 23]
        true true true true).ops =
      [⟨3, [20, 21]⟩, ⟨0, [22, 23]⟩] :=
  ⟨by decide, by
    have h := c5_write_block_placement ⟨3, 0, 1, 5⟩ [10, 11, 12]
      [20, 21, 22, 23] (by decide)
    rw [h]
    decide⟩

/-- C6.  A Read of `num` items on a non-empty buffer issues exactly one
raw block read, at item position `tail` with the requested count passed
straight to `fread`; the items delivered are the contiguous run
`(f.drop tail).take num`, never split across the wrap boundary and
stopping at the file end (`res = min num (f.length - tail)`, hence at
most `min num N` items since the file never exceeds `N` slots); the
persisted tail becomes `(tail + res) mod N` and the head and file are
untouched. -/
theorem c6_read_single_block (m : ringbuf_meta_t) (f : BlockFile)
    (num : Nat) (hne : m.tail ≠ m.head) (htail : m.tail < m.item_num)
    (hf : f.length ≤ m.item_num) (hN32 : 2 * m.item_num ≤ U32) :
    (LFRingRead m f num true).ops = [⟨m.tail, num⟩] ∧
    (LFRingRead m f num true).data = (f.drop m.tail).take num ∧
    (LFRingRead m f num true).res = min num (f.length - m.tail) ∧
    (LFRingRead m f num true).res ≤ min num m.item_num ∧
    (LFRingRead m f num true).meta =
      { m with tail := (m.tail + min num (f.length - m.tail)) % m.item_num } ∧
    (LFRingRead m f num true).file = f := by
  have hU : U32 = 4294967296 := rfl
  have hlen : ((f.drop m.tail).take num).length = min num (f.length - m.tail) := by
    rw [List.length_take, List.length_drop]
  have hL : LFRingRead m f num true =
      ⟨min num (f.length - m.tail),
        { m with tail := ((m.tail + min num (f.length - m.tail)) % U32)
            % m.item_num },
        f, (f.drop m.tail).take num, [⟨m.tail, num⟩]⟩ := by
    unfold LFRingRead
    rw [if_neg hne]
    unfold ringbuf_read
    rw [if_pos rfl]
    simp only [freadAt, hlen]
  have hmod : (m.tail + min num (f.length - m.tail)) % U32
      = m.tail + min num (f.length - m.tail) :=
    Nat.mod_eq_of_lt (by omega)
  rw [hL, hmod]
  refine ⟨rfl, rfl, rfl, ?_, rfl, rfl⟩
  show min num (f.length - m.tail) ≤ min num m.item_num
  omega

/-- C6 witness: wrapped data (`head = 0 < tail = 1`, `N = 5`), a request
of 4 items reads the single run at slots 1..4 and advances the tail to
`(1 + 4) mod 5 = 0`. -/
theorem c6_read_single_block_witness :
    (1 : Nat) ≠ 0 ∧ (1 : Nat) < 5 ∧
    [6, 2, 3, 4, 5].length ≤ 5 ∧ 2 * 5 ≤ U32 ∧
    (LFRingRead ⟨0, 1, 1, 5⟩ [6, 2, 3, 4, 5] 4 true).ops = [⟨1, 4⟩] ∧
    (LFRingRead ⟨0, 1, 1, 5⟩ [6, 2, 3, 4, 5] 4 true).data = [2, 3, 4, 5] ∧
    (LFRingRead ⟨0, 1, 1, 5⟩ [6, 2, 3, 4, 5] 4 true).meta.tail = 0 := by
  have h := c6_read_single_block ⟨0, 1, 1, 5⟩ [6, 2, 3, 4, 5] 4
    (by decide) (by decide) (by decide) (by decide)
  refine ⟨by decide, by decide, by decide, by decide, h.1, ?_, ?_⟩
  · rw [h.2.1]
    decide
  · rw [h.2.2.2.2.1]
    decide

/-- C7.  The claim states that a Write whose block file stays unopenable
even after the full reset returns `FileError` and leaves the reset state
(head = 0, tail = 0) persisted.  The return value is right, but the error
code `-4` then flows into the final unsigned head/tail update: with
`N = 5` the code persists `head = (0 + 2^32 - 4) mod 5 = 2` and, because
`(uint32)(used + n) = 2^32 - 4 > 4` triggers the eviction branch,
`tail = (2^32 - 8) mod 5 = 3` — not the reset state. -/
theorem c7_write_persistent_failure_state :
    (LFRingWrite ⟨0, 0, 1, 5⟩ [1, 2, 3] [7] false false false false).res
      = -LFRB_NFILE_ERROR ∧
    (LFRingWrite ⟨0, 0, 1, 5⟩ [1, 2, 3] [7] false false false false).meta.head
      = 2 ∧
    (LFRingWrite ⟨0, 0, 1, 5⟩ [1, 2, 3] [7] false false false false).meta.tail
      = 3 := by
  decide

/-- C8 counterexample.  The claim states the block file is truncated at
Init for every empty state (`head == tail`), not only `head == tail == 0`.
But loading a matching persisted record with `head = tail = 3` (an empty
buffer after a full drain) leaves the non-empty file untouched. -/
theorem c8_init_empty_nonzero_keeps_file :
    (LFRingInit (some ⟨3, 3, 4, 5⟩) [9, 9, 9, 9, 9] 4 5).1 = ⟨3, 3, 4, 5⟩ ∧
    (LFRingInit (some ⟨3, 3, 4, 5⟩) [9, 9, 9, 9, 9] 4 5).2 =
      [9, 9, 9, 9, 9] := by
  decide

/-- C8 amended.  At Init the block file is truncated exactly when the
resulting metadata has `head = 0` and `tail = 0`: a matching loaded
record is kept as-is and its file is truncated only under that test,
while a fresh Init (no prior record) always resets to zeros and
truncates. -/
theorem c8_init_truncate_iff_zero (p : ringbuf_meta_t) (f : BlockFile)
    (s N : Nat) (hs : p.item_size = s) (hn : p.item_num = N) :
    (LFRingInit (some p) f s N).1 = p ∧
    (LFRingInit (some p) f s N).2 =
      (if p.head = 0 ∧ p.tail = 0 then ([] : BlockFile) else f) ∧
    (LFRingInit none f s N).2 = ([] : BlockFile) := by
  have h1 : init_ringbuf_meta (some p) s N = p := by
    show (if p.item_size = s ∧ p.item_num = N then p
          else reset_ringbuf_meta p s N) = p
    rw [if_pos ⟨hs, hn⟩]
  refine ⟨h1, ?_, rfl⟩
  show init_ringbuf_lfs (init_ringbuf_meta (some p) s N) f = _
  rw [h1]
  rfl

/-- C8 witness: the amended statement at the `head = tail = 3` record. -/
theorem c8_init_truncate_iff_zero_witness :
    (⟨3, 3, 4, 5⟩ : ringbuf_meta_t).item_size = 4 ∧
    (⟨3, 3, 4, 5⟩ : ringbuf_meta_t).item_num = 5 ∧
    (LFRingInit (some ⟨3, 3, 4, 5⟩) [9, 9] 4 5).1 = ⟨3, 3, 4, 5⟩ ∧
    (LFRingInit (some ⟨3, 3, 4, 5⟩) [9, 9] 4 5).2 =
      (if (⟨3, 3, 4, 5⟩ : ringbuf_meta_t).head = 0 ∧
          (⟨3, 3, 4, 5⟩ : ringbuf_meta_t).tail = 0
        then ([] : BlockFile) else [9, 9]) ∧
    (LFRingInit none [9, 9] 4 5).2 = ([] : BlockFile) :=
  ⟨by decide, by decide,
    (c8_init_truncate_iff_zero ⟨3, 3, 4, 5⟩ [9, 9] 4 5 rfl rfl).1,
    (c8_init_truncate_iff_zero ⟨3, 3, 4, 5⟩ [9, 9] 4 5 rfl rfl).2.1,
    (c8_init_truncate_iff_zero ⟨3, 3, 4, 5⟩ [9, 9] 4 5 rfl rfl).2.2⟩

/-- C9.  A freshly initialized engine with no prior persisted state
reports empty, and on any state with `head == tail` a Read returns 0
without touching the metadata or the file and without issuing any block
read — the empty return is not a failure. -/
theorem c9_fresh_empty_and_read_zero :
    (∀ (s N : Nat) (f : BlockFile),
        LFRingIsEmpty (LFRingInit none f s N).1 = true) ∧
    (∀ (m : ringbuf_meta_t) (f : BlockFile) (num : Nat) (ok : Bool),
        m.tail = m.head → LFRingRead m f num ok = ⟨0, m, f, [], []⟩) := by
  constructor
  · intro s N f
    rfl
  · intro m f num ok h
    unfold LFRingRead
    rw [if_pos h]

/-- C9 witness: a fresh Init reports empty, and a Read on the empty state
`head = tail = 2` returns 0 unchanged. -/
theorem c9_fresh_empty_and_read_zero_witness :
    LFRingIsEmpty (LFRingInit none [7] 4 5).1 = true ∧
    LFRingRead ⟨2, 2, 4, 5⟩ [7] 3 true = ⟨0, ⟨2, 2, 4, 5⟩, [7], [], []⟩ :=
  ⟨c9_fresh_empty_and_read_zero.1 4 5 [7],
    c9_fresh_empty_and_read_zero.2 ⟨2, 2, 4, 5⟩ [7] 3 true rfl⟩

/-- C10.  Every destructive reset triggered by an unopenable block file in
the write or in the read path zeroes head and tail and keeps the current
`item_size` and `item_num` unchanged: a recovery reset can never alter
the record size or the capacity. -/
theorem c10_recovery_reset_frame (m : ringbuf_meta_t) (f : BlockFile)
    (d : List Nat) (num : Nat) (retryOk : Bool) :
    (ringbuf_write m f d false retryOk).meta =
      ⟨0, 0, m.item_size, m.item_num⟩ ∧
    (ringbuf_read m f num false).meta =
      ⟨0, 0, m.item_size, m.item_num⟩ := by
  constructor
  · unfold ringbuf_write
    rw [if_neg Bool.false_ne_true]
    cases retryOk <;> rfl
  · rfl

end LFRing
